import Mathlib

/-! Overview.
Verification of the DynamoDB batching demo module (dynamodb_batching.py).

The embedding is shallow and follows the Python source:

* do_batch_get is modelled as a fuel-indexed loop over an abstract service,
  given as the function from the attempt number to the response that the
  batch_get_item call returns on that attempt.  The loop state records the
  Python locals (tries, sleepy_time, batch_keys, retrieved) together with
  the observable request history and sleep history.
* Python dictionaries become association lists in insertion order; reading
  a missing dictionary entry is a KeyError, carried in the error component
  of the result.
* The error-handling boundaries of create_table, fill_table, get_batch_data
  and archive_trades are modelled with an explicit outcome parameter for
  each vendor-SDK call, and archive_trades additionally records the trace
  of operations it performs (create, wait, put and delete events).
-/

abbrev TableName := String
abbrev Key := String
abbrev Item := String

/-- A Python KeyError raised on a missing dictionary entry. -/
inductive PyError where
  | keyError : String → PyError
deriving DecidableEq

/-- The RequestItems mapping: each table name with the list under its Keys
entry. -/
abbrev BatchKeys := List (TableName × List Key)

/-- The retrieved accumulator: each table name with the items fetched so
far for it. -/
abbrev Retrieved := List (TableName × List Item)

/-- One batch_get_item response: the optional Responses section and the
optional UnprocessedKeys entry.  A missing Responses section is tolerated
by the code (response.get with default), while a missing UnprocessedKeys
entry makes the subscript access raise a KeyError. -/
structure BatchResponse where
  Responses : Option (List (TableName × List Item))
  UnprocessedKeys : Option BatchKeys

/-- The statement retrieved[key] += items: append the items to the entry of
the given table, or fail with none when the table is absent from the
accumulator (a Python KeyError). -/
def addItems : Retrieved → TableName → List Item → Option Retrieved
  | [], _, _ => none
  | (u, its) :: rest, t, items =>
    if u = t then some ((u, its ++ items) :: rest)
    else (addItems rest t items).map (fun r => (u, its) :: r)

/-- The for-loop over the Responses section of one response: merge every
listed table in order, stopping with a KeyError at the first table that is
absent from the accumulator; the first component is the accumulator at the
point the loop stopped. -/
def mergeResponses : Retrieved → List (TableName × List Item) → Retrieved × Option PyError
  | retrieved, [] => (retrieved, none)
  | retrieved, (t, items) :: rest =>
    match addItems retrieved t items with
    | some r => mergeResponses r rest
    | none => (retrieved, some (PyError.keyError t))

/-- The local variables of do_batch_get, together with the observable
history of the run: the requests issued so far (each recorded as the
RequestItems mapping it carried) and the sleep durations performed so far,
both in order. -/
structure GetState where
  tries : Nat
  sleepyTime : Nat
  batchKeys : BatchKeys
  retrieved : Retrieved
  requests : List BatchKeys
  sleeps : List Nat
deriving DecidableEq

/-- max_tries = 5 in do_batch_get. -/
def maxTries : Nat := 5

/-- The while-loop of do_batch_get, with fuel counting the remaining
iterations allowed by the guard tries < max_tries.  Each iteration issues
one request (appending it to the request history), merges the Responses
section into the accumulator, reads UnprocessedKeys (KeyError when the
entry is missing), and on a nonempty unprocessed set replaces the working
key set, increments tries and, when tries is still below max_tries, sleeps
for sleepy_time seconds and doubles sleepy_time capping it at 32. -/
def batchGetLoop (svc : Nat → BatchResponse) : Nat → GetState → GetState × Option PyError
  | 0, s => (s, none)
  | fuel + 1, s =>
    match mergeResponses s.retrieved ((svc s.requests.length).Responses.getD []) with
    | (retr, some e) =>
      ({ s with retrieved := retr, requests := s.requests ++ [s.batchKeys] }, some e)
    | (retr, none) =>
      match (svc s.requests.length).UnprocessedKeys with
      | none =>
        ({ s with retrieved := retr, requests := s.requests ++ [s.batchKeys] },
          some (PyError.keyError "UnprocessedKeys"))
      | some unprocessed =>
        if 0 < unprocessed.length then
          if s.tries + 1 < maxTries then
            batchGetLoop svc fuel
              { tries := s.tries + 1
                sleepyTime := min (s.sleepyTime * 2) 32
                batchKeys := unprocessed
                retrieved := retr
                requests := s.requests ++ [s.batchKeys]
                sleeps := s.sleeps ++ [s.sleepyTime] }
          else
            ({ s with
                tries := s.tries + 1
                batchKeys := unprocessed
                retrieved := retr
                requests := s.requests ++ [s.batchKeys] }, none)
        else
          ({ s with retrieved := retr, requests := s.requests ++ [s.batchKeys] }, none)

/-- The state of do_batch_get just before the while-loop: tries = 0,
sleepy_time = 1, and the accumulator holding an empty list for every table
of the request. -/
def initState (batch_keys : BatchKeys) : GetState :=
  { tries := 0
    sleepyTime := 1
    batchKeys := batch_keys
    retrieved := batch_keys.map (fun p => (p.1, ([] : List Item)))
    requests := []
    sleeps := [] }

/-- A full run of do_batch_get against the given service: the final state
(including the request and sleep histories) together with the exception
raised, if any. -/
def batchGetRun (svc : Nat → BatchResponse) (batch_keys : BatchKeys) :
    GetState × Option PyError :=
  batchGetLoop svc maxTries (initState batch_keys)

/-- do_batch_get itself: the retrieved accumulator on a normal return, or
the uncaught exception. -/
def do_batch_get (svc : Nat → BatchResponse) (batch_keys : BatchKeys) :
    Except PyError Retrieved :=
  match batchGetRun svc batch_keys with
  | (_, some e) => Except.error e
  | (s, none) => Except.ok s.retrieved

/-- The items listed under the given table in one Responses section, in
order. -/
def itemsFor (t : TableName) : List (TableName × List Item) → List Item
  | [] => []
  | (u, items) :: rest => if u = t then items ++ itemsFor t rest else itemsFor t rest

/-- The items the service returned under the given table across the first
n responses, concatenated in order. -/
def gotItems (svc : Nat → BatchResponse) (t : TableName) : Nat → List Item
  | 0 => []
  | n + 1 => gotItems svc t n ++ itemsFor t ((svc n).Responses.getD [])

/-- The successive values taken by sleepy_time: 1, then doubled with a cap
of 32 after each sleep. -/
def sleepSeq : Nat → Nat
  | 0 => 1
  | n + 1 => min (sleepSeq n * 2) 32

/-- The list of the first n sleep durations. -/
def sleepList : Nat → List Nat
  | 0 => []
  | n + 1 => sleepList n ++ [sleepSeq n]

/-! The rest of the module: MAX_GET_SIZE, get_batch_data, the
error-handling boundaries, and archive_trades. -/

/-- MAX_GET_SIZE = 100: the module records that the service rejects a get
batch larger than 100 items. -/
def MAX_GET_SIZE : Nat := 100

/-- One schema entry as passed to create_table: name, key_type and type. -/
structure SchemaItem where
  name : String
  key_type : String
  attr_type : String
deriving DecidableEq

/-- An error raised by the vendor SDK (ClientError), identified by its
error code. -/
structure ClientError where
  code : String
deriving DecidableEq

/-- A table object as the module uses it: its name, key schema, attribute
definitions and provisioned throughput. -/
structure TableDesc where
  name : TableName
  key_schema : List (String × String)
  attribute_definitions : List (String × String)
  read_capacity : Nat
  write_capacity : Nat
deriving DecidableEq

/-- create_table: build the table from the schema (KeySchema from the name
and key_type entries, AttributeDefinitions from the name and type entries,
throughput 10 and 10) and wait until it exists; a ClientError from the SDK
call is logged and re-raised.  The outcome of the underlying SDK call is
passed explicitly. -/
def create_table (table_name : TableName) (schema : List SchemaItem)
    (sdkErr : Option ClientError) : Except ClientError TableDesc :=
  match sdkErr with
  | some e => Except.error e
  | none =>
    Except.ok
      { name := table_name
        key_schema := schema.map (fun item => (item.name, item.key_type))
        attribute_definitions := schema.map (fun item => (item.name, item.attr_type))
        read_capacity := 10
        write_capacity := 10 }

/-- A trade record: the notional attribute used as the key, plus the rest
of the item, kept abstract. -/
structure TradeItem where
  notional : Key
  payload : String
deriving DecidableEq

/-- An entity or aspect record: the float_value attribute used as the key. -/
structure EntityRec where
  float_value : Key
deriving DecidableEq

/-- fill_table: put every item of table_data through the batch writer; a
ClientError is logged and re-raised.  The outcome of the batched SDK
writes is passed explicitly. -/
def fill_table (table : TableDesc) (table_data : List TradeItem)
    (sdkErr : Option ClientError) : Except ClientError Unit :=
  match table, table_data, sdkErr with
  | _, _, some e => Except.error e
  | _, _, none => Except.ok ()

/-- The RequestItems mapping that get_batch_data builds: one Keys entry per
element of each of the three key lists, under the respective table names. -/
def get_batch_data_request (trade_table entity_table aspect_table : TableDesc)
    (trade_list : List TradeItem) (entity_list aspect_list : List EntityRec) :
    BatchKeys :=
  [(trade_table.name, trade_list.map (fun trade => trade.notional)),
   (entity_table.name, entity_list.map (fun entity => entity.float_value)),
   (aspect_table.name, aspect_list.map (fun aspect => aspect.float_value))]

/-- The total number of keys in a RequestItems mapping, summed over every
table of the batch. -/
def keyCount (batch_keys : BatchKeys) : Nat :=
  (batch_keys.map (fun p => p.2.length)).sum

/-- The slicing usage_demo applies to each of the three data lists before
get_batch_data: data[0:int(MAX_GET_SIZE/2)]. -/
def demo_list_cut {α : Type} (data : List α) : List α :=
  data.take (MAX_GET_SIZE / 2)

/-- get_batch_data: call do_batch_get on the request and return the result;
a ClientError raised by the batch-get call is logged and re-raised, while
any other exception from do_batch_get propagates uncaught.  The ClientError
outcome of the underlying SDK call is passed explicitly. -/
def get_batch_data (batch_keys : BatchKeys) (svc : Nat → BatchResponse)
    (sdkErr : Option ClientError) :
    Except ClientError (Except PyError Retrieved) :=
  match sdkErr with
  | some e => Except.error e
  | none => Except.ok (do_batch_get svc batch_keys)

/-- The operations archive_trades performs against the service, in order. -/
inductive Event where
  | createTable : TableName → List (String × String) → Event
  | waitUntilExists : TableName → Event
  | putItem : TableName → TradeItem → Event
  | deleteItem : TableName → Key → Event
deriving DecidableEq

/-- The archive table that archive_trades creates: the source name with
-archive appended, and the key schema, attribute definitions and
provisioned throughput copied from the source table. -/
def archive_table_of (trade_table : TableDesc) : TableDesc :=
  { name := trade_table.name ++ "-archive"
    key_schema := trade_table.key_schema
    attribute_definitions := trade_table.attribute_definitions
    read_capacity := trade_table.read_capacity
    write_capacity := trade_table.write_capacity }

/-- The put events of one batch-writer loop over the items. -/
def putEvents (t : TableName) (items : List TradeItem) : List Event :=
  items.map (fun item => Event.putItem t item)

/-- The delete events of the final batch-writer loop: each item is deleted
from the source table by its notional key. -/
def deleteEvents (t : TableName) (items : List TradeItem) : List Event :=
  items.map (fun item => Event.deleteItem t item.notional)

/-- The delete phase of archive_trades: delete every trade from the source
table; a ClientError is logged and re-raised.  On an error, sent3 counts
the deletes the batch writer delivered before failing. -/
def archiveDeletePhase (trade_table archive_table : TableDesc)
    (trade_data : List TradeItem) (deleteErr : Option ClientError) (sent3 : Nat)
    (trace : List Event) : List Event × Except ClientError TableDesc :=
  match deleteErr with
  | some e => (trace ++ deleteEvents trade_table.name (trade_data.take sent3),
      Except.error e)
  | none => (trace ++ deleteEvents trade_table.name trade_data,
      Except.ok archive_table)

/-- The second put phase of archive_trades: put every trade into the
archive table again; any ClientError is logged and re-raised.  On an
error, sent2 counts the puts delivered before failing. -/
def archiveSecondPutPhase (trade_table archive_table : TableDesc)
    (trade_data : List TradeItem) (put2Err deleteErr : Option ClientError)
    (sent2 sent3 : Nat) (trace : List Event) :
    List Event × Except ClientError TableDesc :=
  match put2Err with
  | some e => (trace ++ putEvents archive_table.name (trade_data.take sent2),
      Except.error e)
  | none =>
    archiveDeletePhase trade_table archive_table trade_data deleteErr sent3
      (trace ++ putEvents archive_table.name trade_data)

/-- archive_trades: create the archive table (re-raising a ClientError),
put every trade into it in a first batch-writer loop during which a
ValidationException is logged as expected and swallowed while any other
ClientError is re-raised, put every trade again in a second loop that
re-raises any ClientError, delete every trade from the source table
re-raising any ClientError, and return the archive table.  The outcome of
each SDK phase is passed explicitly; on a failing put or delete phase,
the corresponding sent argument counts the operations the batch writer
delivered before the failure. -/
def archive_trades (trade_table : TableDesc) (trade_data : List TradeItem)
    (createErr put1Err put2Err deleteErr : Option ClientError)
    (sent1 sent2 sent3 : Nat) : List Event × Except ClientError TableDesc :=
  match createErr with
  | some e => ([], Except.error e)
  | none =>
    let archive_table := archive_table_of trade_table
    let trace1 := [Event.createTable archive_table.name archive_table.key_schema,
                   Event.waitUntilExists archive_table.name]
    match put1Err with
    | some e =>
      if e.code = "ValidationException" then
        archiveSecondPutPhase trade_table archive_table trade_data put2Err
          deleteErr sent2 sent3
          (trace1 ++ putEvents archive_table.name (trade_data.take sent1))
      else
        (trace1 ++ putEvents archive_table.name (trade_data.take sent1),
          Except.error e)
    | none =>
      archiveSecondPutPhase trade_table archive_table trade_data put2Err
        deleteErr sent2 sent3
        (trace1 ++ putEvents archive_table.name trade_data)

/-! Concrete instances used by the witnesses and counterexamples. -/

/-- A service whose every response reports one unprocessed key and carries
no Responses section. -/
def svcFail : Nat → BatchResponse :=
  fun _ => { Responses := none, UnprocessedKeys := some [("T", ["k1"])] }

/-- A one-table request. -/
def keysT : BatchKeys := [("T", ["k1"])]

/-- A service whose first response carries one item for the requested table
and an empty UnprocessedKeys entry. -/
def svcDone : Nat → BatchResponse :=
  fun _ => { Responses := some [("T", ["i1"])], UnprocessedKeys := some [] }

/-- A service whose response carries items for two tables and an empty
UnprocessedKeys entry. -/
def svcMulti : Nat → BatchResponse :=
  fun _ => { Responses := some [("A", ["a1"]), ("B", ["b1", "b2"])],
             UnprocessedKeys := some [] }

/-- A two-table request. -/
def keysAB : BatchKeys := [("A", ["k1"]), ("B", ["k2"])]

/-- A service whose response has a Responses section but no UnprocessedKeys
entry at all. -/
def svcNoUnprocessedEntry : Nat → BatchResponse :=
  fun _ => { Responses := some [("T", ["i1"])], UnprocessedKeys := none }

/-- A service whose response has no Responses section and an empty
UnprocessedKeys entry. -/
def svcEmptyResponse : Nat → BatchResponse :=
  fun _ => { Responses := none, UnprocessedKeys := some [] }

/-- A concrete table, trade record and entity record for the witnesses. -/
def tableT1 : TableDesc :=
  { name := "demo-batch-trades"
    key_schema := [("notional", "HASH")]
    attribute_definitions := [("notional", "S")]
    read_capacity := 10
    write_capacity := 10 }

def tableT2 : TableDesc :=
  { name := "demo-batch-entity"
    key_schema := [("float_value", "HASH")]
    attribute_definitions := [("float_value", "S")]
    read_capacity := 10
    write_capacity := 10 }

def tableT3 : TableDesc :=
  { name := "demo-batch-entity-2"
    key_schema := [("float_value", "HASH")]
    attribute_definitions := [("float_value", "S")]
    read_capacity := 10
    write_capacity := 10 }

def demoTrade : TradeItem := { notional := "n", payload := "p" }

def demoEntity : EntityRec := { float_value := "f" }

/-! Helper lemmas about the accumulator. -/

theorem addItems_map_fst {r r1 : Retrieved} {t : TableName} {items : List Item}
    (h : addItems r t items = some r1) : r1.map Prod.fst = r.map Prod.fst := by
  induction r generalizing r1 with
  | nil => simp [addItems] at h
  | cons p rest ih =>
    obtain ⟨u, its⟩ := p
    by_cases hu : u = t
    · simp only [addItems, if_pos hu, Option.some.injEq] at h
      subst h
      simp
    · simp only [addItems, if_neg hu, Option.map_eq_some'] at h
      obtain ⟨r0, h0, hr⟩ := h
      subst hr
      simp [ih h0]

theorem addItems_lookup {r r1 : Retrieved} {u : TableName} {items : List Item}
    (h : addItems r u items = some r1) (t : TableName) :
    r1.lookup t = if u = t then (r.lookup t).map (fun l => l ++ items)
      else r.lookup t := by
  induction r generalizing r1 with
  | nil => simp [addItems] at h
  | cons p rest ih =>
    obtain ⟨v, its⟩ := p
    by_cases hv : v = u
    · subst hv
      simp only [addItems, if_true, eq_self_iff_true, Option.some.injEq] at h
      subst h
      by_cases ht : v = t
      · subst ht
        simp [List.lookup]
      · have htv : (t == v) = false := beq_eq_false_iff_ne.mpr fun hh => ht hh.symm
        simp [List.lookup, ht, htv]
    · simp only [addItems, if_neg hv, Option.map_eq_some'] at h
      obtain ⟨r0, h0, hr⟩ := h
      subst hr
      by_cases ht : t = v
      · subst ht
        have hut : ¬ u = t := fun hh => hv hh.symm
        simp [List.lookup, hut]
      · simp only [List.lookup, beq_iff_eq, ht, if_neg ht]
        have : (t == v) = false := by simp [ht]
        simp [this, ih h0]

theorem mergeResponses_map_fst (resp : List (TableName × List Item)) (r : Retrieved) :
    (mergeResponses r resp).1.map Prod.fst = r.map Prod.fst := by
  induction resp generalizing r with
  | nil => rfl
  | cons p rest ih =>
    obtain ⟨t, items⟩ := p
    cases ha : addItems r t items with
    | none => simp [mergeResponses, ha]
    | some r1 =>
      simp only [mergeResponses, ha]
      rw [ih r1, addItems_map_fst ha]

theorem mergeResponses_lookup {resp : List (TableName × List Item)}
    {r r1 : Retrieved} (h : mergeResponses r resp = (r1, none)) (t : TableName) :
    r1.lookup t = (r.lookup t).map (fun l => l ++ itemsFor t resp) := by
  induction resp generalizing r with
  | nil =>
    simp only [mergeResponses, Prod.mk.injEq] at h
    rw [← h.1]
    cases r.lookup t <;> simp [itemsFor]
  | cons p rest ih =>
    obtain ⟨u, items⟩ := p
    cases ha : addItems r u items with
    | none => simp [mergeResponses, ha] at h
    | some r0 =>
      simp only [mergeResponses, ha] at h
      rw [ih h, addItems_lookup ha t]
      by_cases hu : u = t
      · subst hu
        simp only [itemsFor, if_pos rfl]
        cases r.lookup u <;> simp
      · simp [itemsFor, hu]

/-! Helper lemmas about the initial state and the sleep sequence. -/

theorem lookup_map_nil {l : BatchKeys} {t : TableName}
    (h : t ∈ l.map Prod.fst) :
    (l.map (fun p => (p.1, ([] : List Item)))).lookup t = some [] := by
  induction l with
  | nil => simp at h
  | cons p rest ih =>
    by_cases ht : t = p.1
    · simp [List.lookup, ht]
    · have hmem : t ∈ rest.map Prod.fst := by
        rcases List.mem_cons.mp h with h1 | h1
        · exact absurd (by simpa using h1) ht
        · simpa using h1
      have htv : (t == p.1) = false := beq_eq_false_iff_ne.mpr ht
      simp [List.lookup, htv, ih hmem]

theorem initState_retrieved_map_fst (batch_keys : BatchKeys) :
    (initState batch_keys).retrieved.map Prod.fst = batch_keys.map Prod.fst := by
  simp [initState, List.map_map]

theorem sleepList_length (n : Nat) : (sleepList n).length = n := by
  induction n with
  | zero => rfl
  | succ n ih => simp [sleepList, ih]

theorem sleepList_eq_take {n : Nat} (h : n ≤ 4) :
    sleepList n = List.take n [1, 2, 4, 8] := by
  interval_cases n <;> decide

/-! Loop invariant lemmas for do_batch_get. -/

theorem batchGetLoop_tables (svc : Nat → BatchResponse) :
    ∀ fuel s, (batchGetLoop svc fuel s).1.retrieved.map Prod.fst
      = s.retrieved.map Prod.fst := by
  intro fuel
  induction fuel with
  | zero => intro s; rfl
  | succ fuel ih =>
    intro s
    have hm := mergeResponses_map_fst ((svc s.requests.length).Responses.getD [])
      s.retrieved
    rcases hmerge : mergeResponses s.retrieved
        ((svc s.requests.length).Responses.getD []) with ⟨retr, err⟩
    rw [hmerge] at hm
    cases err with
    | some e => simp [batchGetLoop, hmerge, hm]
    | none =>
      cases hu : (svc s.requests.length).UnprocessedKeys with
      | none => simp [batchGetLoop, hmerge, hu, hm]
      | some unprocessed =>
        by_cases hlen : 0 < unprocessed.length
        · by_cases htr : s.tries + 1 < maxTries
          · simp only [batchGetLoop, hmerge, hu, if_pos hlen, if_pos htr]
            rw [ih]
            exact hm
          · simp [batchGetLoop, hmerge, hu, if_pos hlen, if_neg htr, hm]
        · simp [batchGetLoop, hmerge, hu, if_neg hlen, hm]

theorem batchGetLoop_items (svc : Nat → BatchResponse) :
    ∀ fuel s t, s.retrieved.lookup t = some (gotItems svc t s.requests.length) →
      (batchGetLoop svc fuel s).2 = none →
      (batchGetLoop svc fuel s).1.retrieved.lookup t
        = some (gotItems svc t (batchGetLoop svc fuel s).1.requests.length) := by
  intro fuel
  induction fuel with
  | zero => intro s t h _; exact h
  | succ fuel ih =>
    intro s t h herr
    rcases hmerge : mergeResponses s.retrieved
        ((svc s.requests.length).Responses.getD []) with ⟨retr, err⟩
    cases err with
    | some e => simp [batchGetLoop, hmerge] at herr
    | none =>
      have hretr : retr.lookup t = some (gotItems svc t (s.requests.length + 1)) := by
        rw [mergeResponses_lookup hmerge t, h]
        simp [gotItems]
      cases hu : (svc s.requests.length).UnprocessedKeys with
      | none => simp [batchGetLoop, hmerge, hu] at herr
      | some unprocessed =>
        by_cases hlen : 0 < unprocessed.length
        · by_cases htr : s.tries + 1 < maxTries
          · simp only [batchGetLoop, hmerge, hu, if_pos hlen, if_pos htr] at herr ⊢
            exact ih _ t (by simpa using hretr) herr
          · simp only [batchGetLoop, hmerge, hu, if_pos hlen, if_neg htr]
            simpa using hretr
        · simp only [batchGetLoop, hmerge, hu, if_neg hlen]
          simpa using hretr

theorem batchGetLoop_history (svc : Nat → BatchResponse) :
    ∀ fuel s, 0 < fuel → s.tries = s.requests.length → s.tries = s.sleeps.length →
      s.sleeps = sleepList s.tries → s.sleepyTime = sleepSeq s.tries →
      fuel + s.tries = maxTries →
      ((batchGetLoop svc fuel s).1.sleeps
          = sleepList (batchGetLoop svc fuel s).1.sleeps.length ∧
        (batchGetLoop svc fuel s).1.sleeps.length + 1
          = (batchGetLoop svc fuel s).1.requests.length ∧
        (batchGetLoop svc fuel s).1.requests.length ≤ maxTries) ∧
      ((∀ n, ∃ u, (svc n).UnprocessedKeys = some u ∧ u ≠ []) →
        (batchGetLoop svc fuel s).2 = none →
        (batchGetLoop svc fuel s).1.requests.length = maxTries) := by
  intro fuel
  induction fuel with
  | zero => intro s h0; omega
  | succ fuel ih =>
    intro s h0 h1 h2 h3 h4 h5
    have h5' : fuel + 1 + s.tries = 5 := h5
    have hstay : s.sleeps = sleepList s.sleeps.length := by
      rw [h3, sleepList_length]
    rcases hmerge : mergeResponses s.retrieved
        ((svc s.requests.length).Responses.getD []) with ⟨retr, err⟩
    cases err with
    | some e =>
      simp only [batchGetLoop, hmerge]
      refine ⟨⟨hstay, ?_, ?_⟩, ?_⟩
      · simp [← h1, ← h2]
      · simp only [List.length_append, List.length_cons, List.length_nil]
        show s.requests.length + 1 ≤ 5
        omega
      · intro _ hnone
        simp at hnone
    | none =>
      cases hu : (svc s.requests.length).UnprocessedKeys with
      | none =>
        simp only [batchGetLoop, hmerge, hu]
        refine ⟨⟨hstay, ?_, ?_⟩, ?_⟩
        · simp [← h1, ← h2]
        · simp only [List.length_append, List.length_cons, List.length_nil]
          show s.requests.length + 1 ≤ 5
          omega
        · intro _ hnone
          simp at hnone
      | some unprocessed =>
        by_cases hlen : 0 < unprocessed.length
        · by_cases htr : s.tries + 1 < maxTries
          · have htr' : s.tries + 1 < 5 := htr
            simp only [batchGetLoop, hmerge, hu, if_pos hlen, if_pos htr]
            apply ih
            · omega
            · simp [← h1]
            · simp [← h2]
            · simp only []
              show s.sleeps ++ [s.sleepyTime] = sleepList (s.tries + 1)
              rw [sleepList, h3, h4]
            · show min (s.sleepyTime * 2) 32 = sleepSeq (s.tries + 1)
              rw [sleepSeq, h4]
            · show fuel + (s.tries + 1) = maxTries
              omega
          · have htr' : ¬ s.tries + 1 < 5 := htr
            simp only [batchGetLoop, hmerge, hu, if_pos hlen, if_neg htr]
            refine ⟨⟨hstay, ?_, ?_⟩, ?_⟩
            · simp [← h1, ← h2]
            · simp only [List.length_append, List.length_cons, List.length_nil]
              show s.requests.length + 1 ≤ 5
              omega
            · intro _ _
              simp only [List.length_append, List.length_cons, List.length_nil]
              show s.requests.length + 1 = 5
              omega
        · simp only [batchGetLoop, hmerge, hu, if_neg hlen]
          refine ⟨⟨hstay, ?_, ?_⟩, ?_⟩
          · simp [← h1, ← h2]
          · simp only [List.length_append, List.length_cons, List.length_nil]
            show s.requests.length + 1 ≤ 5
            omega
          · intro hall _
            obtain ⟨u, huu, hune⟩ := hall s.requests.length
            rw [hu] at huu
            cases huu
            simp at hlen
            exact absurd hlen hune

theorem batchGetLoop_first_success (svc : Nat → BatchResponse) :
    ∀ fuel s, 0 < fuel → (svc s.requests.length).UnprocessedKeys = some [] →
      (batchGetLoop svc fuel s).1.requests = s.requests ++ [s.batchKeys] ∧
      (batchGetLoop svc fuel s).1.sleeps = s.sleeps := by
  intro fuel s h0 h
  cases fuel with
  | zero => exact absurd h0 (lt_irrefl 0)
  | succ fuel =>
    rcases hmerge : mergeResponses s.retrieved
        ((svc s.requests.length).Responses.getD []) with ⟨retr, err⟩
    cases err with
    | some e => simp [batchGetLoop, hmerge]
    | none => simp [batchGetLoop, hmerge, h]

/-! The claims. -/

/-- C1 counterexample: against a service whose every response reports an
unprocessed key, do_batch_get reaches its maximal number of retries, and
the sleep durations performed between the five attempts are 1, 2, 4 and 8
seconds only; the sleep list is not the claimed 1, 2, 4, 8, 16, because a
fifth sleep never occurs. -/
theorem C1_backoff_counterexample :
    (batchGetRun svcFail keysT).1.sleeps = [1, 2, 4, 8] ∧
    (batchGetRun svcFail keysT).1.requests.length = 5 ∧
    (batchGetRun svcFail keysT).1.sleeps ≠ [1, 2, 4, 8, 16] := by
  refine ⟨by decide, by decide, by decide⟩

/-- C1 (amended): in every run of do_batch_get the sleep durations form an
initial segment of 1, 2, 4, 8: the first sleep lasts 1 second and each
subsequent sleep is the minimum of twice the previous duration and 32, and
at most four sleeps occur (max_tries - 1), so the next values 16 and 32 of
the recurrence are never slept. -/
theorem C1_backoff_sequence (svc : Nat → BatchResponse) (batch_keys : BatchKeys) :
    (batchGetRun svc batch_keys).1.sleeps
      = List.take (batchGetRun svc batch_keys).1.sleeps.length [1, 2, 4, 8] ∧
    (batchGetRun svc batch_keys).1.sleeps.length ≤ 4 := by
  unfold batchGetRun
  obtain ⟨⟨hA, hB, hC⟩, -⟩ := batchGetLoop_history svc maxTries (initState batch_keys)
    (by decide) rfl rfl rfl rfl rfl
  have hC' : (batchGetLoop svc maxTries (initState batch_keys)).1.requests.length ≤ 5 := hC
  have hlen : (batchGetLoop svc maxTries (initState batch_keys)).1.sleeps.length ≤ 4 := by
    omega
  refine ⟨?_, hlen⟩
  conv_lhs => rw [hA]
  rw [sleepList_eq_take hlen]

/-- C2: when every service response reports at least one unprocessed key
and the run raises no exception, do_batch_get issues exactly 5 batch-get
requests and performs exactly 4 sleeps, hence no sleep after the fifth and
final attempt; termination is intrinsic, the model being a total function
of the fuel max_tries. -/
theorem C2_five_attempts (svc : Nat → BatchResponse) (batch_keys : BatchKeys)
    (hall : ∀ n, ∃ u, (svc n).UnprocessedKeys = some u ∧ u ≠ [])
    (hok : (batchGetRun svc batch_keys).2 = none) :
    (batchGetRun svc batch_keys).1.requests.length = 5 ∧
    (batchGetRun svc batch_keys).1.sleeps.length = 4 := by
  unfold batchGetRun at hok ⊢
  obtain ⟨⟨-, hB, -⟩, hD⟩ := batchGetLoop_history svc maxTries (initState batch_keys)
    (by decide) rfl rfl rfl rfl rfl
  have hreq : (batchGetLoop svc maxTries (initState batch_keys)).1.requests.length = 5 :=
    hD hall hok
  exact ⟨hreq, by omega⟩

/-- C2 witness: the always-unprocessed service from the counterexample
drives do_batch_get through exactly 5 requests and 4 sleeps. -/
theorem C2_five_attempts_witness :
    (batchGetRun svcFail keysT).1.requests.length = 5 ∧
    (batchGetRun svcFail keysT).1.sleeps.length = 4 :=
  C2_five_attempts svcFail keysT
    (fun _ => ⟨[("T", ["k1"])], rfl, by decide⟩) (by decide)

/-- C3: when the first response reports zero unprocessed keys, do_batch_get
issues exactly one request (one round-trip) and performs no sleep. -/
theorem C3_single_round_trip (svc : Nat → BatchResponse) (batch_keys : BatchKeys)
    (h : (svc 0).UnprocessedKeys = some []) :
    (batchGetRun svc batch_keys).1.requests.length = 1 ∧
    (batchGetRun svc batch_keys).1.sleeps = [] := by
  unfold batchGetRun
  obtain ⟨hreq, hsl⟩ := batchGetLoop_first_success svc maxTries (initState batch_keys)
    (by decide) h
  constructor
  · rw [hreq]
    rfl
  · rw [hsl]
    rfl

/-- C3 witness: a service whose first response carries an item and an empty
unprocessed set makes do_batch_get return after one request and no sleep. -/
theorem C3_single_round_trip_witness :
    (batchGetRun svcDone keysT).1.requests.length = 1 ∧
    (batchGetRun svcDone keysT).1.sleeps = [] :=
  C3_single_round_trip svcDone keysT rfl

/-- C4: on every run of do_batch_get that raises no exception, the result
maps each requested table to exactly the concatenation, across the issued
requests in order, of the items the service listed under that table name in
its Responses sections — so items from a multi-table response are
partitioned back into their owning tables with order preserved. -/
theorem C4_partition (svc : Nat → BatchResponse) (batch_keys : BatchKeys)
    (t : TableName) (hmem : t ∈ batch_keys.map Prod.fst)
    (hok : (batchGetRun svc batch_keys).2 = none) :
    (batchGetRun svc batch_keys).1.retrieved.lookup t
      = some (gotItems svc t (batchGetRun svc batch_keys).1.requests.length) := by
  unfold batchGetRun at hok ⊢
  apply batchGetLoop_items svc maxTries (initState batch_keys) t ?_ hok
  exact lookup_map_nil hmem

/-- C4 witness: one response holding items for tables A and B is split so
that A receives its single item and B its two items. -/
theorem C4_partition_witness :
    (batchGetRun svcMulti keysAB).1.retrieved.lookup "A"
      = some (gotItems svcMulti "A" (batchGetRun svcMulti keysAB).1.requests.length) ∧
    (batchGetRun svcMulti keysAB).1.retrieved.lookup "A" = some ["a1"] ∧
    (batchGetRun svcMulti keysAB).1.retrieved.lookup "B" = some ["b1", "b2"] :=
  ⟨C4_partition svcMulti keysAB "A" (by decide) (by decide), by decide, by decide⟩

/-- C7: whenever the run raises no exception — in particular when the
retries were exhausted with unprocessed keys remaining — do_batch_get
returns through the single normal return path, an ok value holding exactly
the accumulator, with no marker distinguishing exhaustion from full
success. -/
theorem C7_same_return_channel (svc : Nat → BatchResponse) (batch_keys : BatchKeys)
    (h : (batchGetRun svc batch_keys).2 = none) :
    do_batch_get svc batch_keys
      = Except.ok ((batchGetRun svc batch_keys).1.retrieved) := by
  unfold do_batch_get
  rcases hrun : batchGetRun svc batch_keys with ⟨s, err⟩
  rw [hrun] at h
  cases err with
  | some e => simp at h
  | none => rfl

/-- C7 witness: a run that exhausts all 5 attempts (tries ends at 5) still
returns ok with the partial accumulator, here the empty item lists. -/
theorem C7_same_return_channel_witness :
    do_batch_get svcFail keysT
      = Except.ok ((batchGetRun svcFail keysT).1.retrieved) ∧
    (batchGetRun svcFail keysT).1.tries = 5 ∧
    (batchGetRun svcFail keysT).1.retrieved = [("T", [])] :=
  ⟨C7_same_return_channel svcFail keysT (by decide), by decide, by decide⟩

/-- C9: whatever the service responses, every dictionary that do_batch_get
returns has exactly the key set of the original batch_keys mapping, in the
same order: every requested table is present (possibly with an empty item
list) and no other table appears. -/
theorem C9_key_set_preserved (svc : Nat → BatchResponse) (batch_keys : BatchKeys)
    (r : Retrieved) (h : do_batch_get svc batch_keys = Except.ok r) :
    r.map Prod.fst = batch_keys.map Prod.fst := by
  unfold do_batch_get at h
  rcases hrun : batchGetRun svc batch_keys with ⟨s, err⟩
  rw [hrun] at h
  cases err with
  | some e => simp at h
  | none =>
    have hr : r = s.retrieved := by
      have := h
      simp only [Except.ok.injEq] at this
      exact this.symm
    subst hr
    have htab := batchGetLoop_tables svc maxTries (initState batch_keys)
    have hrun' : batchGetLoop svc maxTries (initState batch_keys) = (s, none) := hrun
    rw [hrun'] at htab
    rw [show (s, (none : Option PyError)).1 = s from rfl] at htab
    rw [htab, initState_retrieved_map_fst]

/-- C9 witness: a single-response run returns exactly the requested table
with its item, and the key set of the result equals that of the request. -/
theorem C9_key_set_preserved_witness :
    (([("T", ["i1"])] : Retrieved)).map Prod.fst = keysT.map Prod.fst :=
  C9_key_set_preserved svcDone keysT [("T", ["i1"])] rfl

/-- C10: do_batch_get tolerates a response with no Responses section,
treating it as empty and returning normally, but reads UnprocessedKeys
unconditionally: on a response lacking that entry it raises a KeyError
instead of treating the batch as complete. -/
theorem C10_missing_entries :
    do_batch_get svcEmptyResponse keysT = Except.ok [("T", [])] ∧
    do_batch_get svcNoUnprocessedEntry keysT
      = Except.error (PyError.keyError "UnprocessedKeys") := by
  exact ⟨rfl, rfl⟩

/-- C5: the claim fails on the code.  usage_demo slices each of the three
data lists to MAX_GET_SIZE / 2 = 50 entries, and get_batch_data builds one
Keys entry per element of each list under three tables, so with at least
50 trades, 50 entities and 50 aspects the request carries 150 keys — more
than the MAX_GET_SIZE = 100 limit the module itself documents. -/
theorem C5_batch_size_exceeded :
    keyCount (get_batch_data_request tableT1 tableT2 tableT3
        (demo_list_cut (List.replicate 60 demoTrade))
        (demo_list_cut (List.replicate 60 demoEntity))
        (demo_list_cut (List.replicate 60 demoEntity))) = 150 ∧
    MAX_GET_SIZE < 150 := by
  exact ⟨by decide, by decide⟩

/-- C6: a ClientError raised inside create_table, fill_table or
get_batch_data is re-raised; in archive_trades a ClientError is re-raised
from the create phase, the second put loop and the delete loop, while in
the first put loop only, a ValidationException is swallowed and the
function continues to a normal return — any other code there is re-raised,
and even a ValidationException in the second put loop is re-raised. -/
theorem C6_error_boundaries (table_name : TableName) (schema : List SchemaItem)
    (table : TableDesc) (table_data : List TradeItem) (batch_keys : BatchKeys)
    (svc : Nat → BatchResponse) (trade_table : TableDesc)
    (trade_data : List TradeItem) (e ev : ClientError) (sent1 sent2 sent3 : Nat)
    (hv : ev.code = "ValidationException")
    (hnv : e.code ≠ "ValidationException") :
    create_table table_name schema (some e) = Except.error e ∧
    fill_table table table_data (some e) = Except.error e ∧
    get_batch_data batch_keys svc (some e) = Except.error e ∧
    (archive_trades trade_table trade_data (some e) none none none
        sent1 sent2 sent3).2 = Except.error e ∧
    (archive_trades trade_table trade_data none (some ev) none none
        sent1 sent2 sent3).2 = Except.ok (archive_table_of trade_table) ∧
    (archive_trades trade_table trade_data none (some e) none none
        sent1 sent2 sent3).2 = Except.error e ∧
    (archive_trades trade_table trade_data none none (some e) none
        sent1 sent2 sent3).2 = Except.error e ∧
    (archive_trades trade_table trade_data none none (some ev) none
        sent1 sent2 sent3).2 = Except.error ev ∧
    (archive_trades trade_table trade_data none none none (some e)
        sent1 sent2 sent3).2 = Except.error e := by
  refine ⟨rfl, rfl, rfl, rfl, ?_, ?_, rfl, rfl, rfl⟩
  · simp [archive_trades, hv, archiveSecondPutPhase, archiveDeletePhase]
  · simp [archive_trades, hnv]

/-- C6 witness: the boundaries evaluated at a throttling error and a
validation error on concrete tables and data. -/
theorem C6_error_boundaries_witness :
    create_table "T" [] (some { code := "Throttling" })
      = Except.error { code := "Throttling" } ∧
    fill_table tableT1 [] (some { code := "Throttling" })
      = Except.error { code := "Throttling" } ∧
    get_batch_data keysT svcDone (some { code := "Throttling" })
      = Except.error { code := "Throttling" } ∧
    (archive_trades tableT1 [demoTrade] (some { code := "Throttling" }) none none none
        0 0 0).2 = Except.error { code := "Throttling" } ∧
    (archive_trades tableT1 [demoTrade] none (some { code := "ValidationException" })
        none none 0 0 0).2 = Except.ok (archive_table_of tableT1) ∧
    (archive_trades tableT1 [demoTrade] none (some { code := "Throttling" }) none none
        0 0 0).2 = Except.error { code := "Throttling" } ∧
    (archive_trades tableT1 [demoTrade] none none (some { code := "Throttling" }) none
        0 0 0).2 = Except.error { code := "Throttling" } ∧
    (archive_trades tableT1 [demoTrade] none none (some { code := "ValidationException" })
        none 0 0 0).2 = Except.error { code := "ValidationException" } ∧
    (archive_trades tableT1 [demoTrade] none none none (some { code := "Throttling" })
        0 0 0).2 = Except.error { code := "Throttling" } :=
  C6_error_boundaries "T" [] tableT1 [] keysT svcDone tableT1 [demoTrade]
    { code := "Throttling" } { code := "ValidationException" } 0 0 0 rfl (by decide)

/-- C8: in every successful execution of archive_trades the operation trace
is exactly: create the archive table (the source name with -archive
appended, with the source key schema) and wait until it exists, then put
every item of trade_data into the archive table (once per put loop), and
only after all puts delete each trade from the source table by its
notional key; the function returns the newly created archive table. -/
theorem C8_archive_order (trade_table : TableDesc) (trade_data : List TradeItem)
    (sent1 sent2 sent3 : Nat) :
    archive_trades trade_table trade_data none none none none sent1 sent2 sent3
      = ([Event.createTable (trade_table.name ++ "-archive") trade_table.key_schema,
          Event.waitUntilExists (trade_table.name ++ "-archive")]
          ++ putEvents (trade_table.name ++ "-archive") trade_data
          ++ putEvents (trade_table.name ++ "-archive") trade_data
          ++ deleteEvents trade_table.name trade_data,
         Except.ok (archive_table_of trade_table)) ∧
    (archive_table_of trade_table).name = trade_table.name ++ "-archive" ∧
    (archive_table_of trade_table).key_schema = trade_table.key_schema := by
  refine ⟨?_, rfl, rfl⟩
  simp [archive_trades, archiveSecondPutPhase, archiveDeletePhase, archive_table_of,
    List.append_assoc]
